import Mathlib

/-!
Verification of the Extractor repository: a browser automation that exports
CSV reports and uploads parsed records into a database (PostgreSQL) or a CRM
(Bitrix24).  The definitions below are a shallow embedding of the Python
sources under `src/`:

* `src/app/script.py` — action interpreter, element-interaction primitives,
  download acquisition, file classifier (`_manage_uploaded_files`);
* `src/browser_automation.py` — an earlier variant of the same automation;
* `src/app/bitrix_manager.py` — the CRM sink;
* `src/app/postgres_manager.py` — the database sink.
-/

namespace Extractor

/-! Python value model: cells of a pandas DataFrame as the managers see
them — a string, an int, the float NaN that pandas puts into empty CSV
cells, or Python `None`. -/

/-- A scalar cell value as seen by the upload managers. -/
inductive PyValue where
  | vNull : PyValue
  | vNaN : PyValue
  | vStr : String → PyValue
  | vInt : Int → PyValue
  deriving DecidableEq, Repr

/-- Python `pd.notna(x)`: false exactly on `None` and `NaN`. -/
def pdNotna : PyValue → Bool
  | .vNull => false
  | .vNaN => false
  | .vStr _ => true
  | .vInt _ => true

/-- Python `str(x)` on a cell value. -/
def pyStr : PyValue → String
  | .vNull => "None"
  | .vNaN => "nan"
  | .vStr s => s
  | .vInt n => toString n

/-- Null normalization `df.where(pd.notna(df), None)`: NaN cells are
replaced by `None`, everything else is kept. -/
def normalizeNull (x : PyValue) : PyValue :=
  if pdNotna x then x else .vNull

/-! Regex digit-run extraction: `re.search` with the pattern of one or more
digits returns the first maximal run of digit characters of the string, or
nothing when the string has no digit. -/

/-- The maximal digit run starting at the head of the character list. -/
def digitRunHead : List Char → List Char
  | [] => []
  | c :: cs => if c.isDigit then c :: digitRunHead cs else []

/-- Model of `re.search` for the digit pattern over the characters of `s`:
the first maximal digit run, if any. -/
def reSearchDigits : List Char → Option (List Char)
  | [] => none
  | c :: cs => if c.isDigit then some (c :: digitRunHead cs) else reSearchDigits cs

/-- Python `int(...)` on a non-empty string of decimal digits. -/
def digitsToNat (cs : List Char) : Nat :=
  cs.foldl (fun n c => 10 * n + (c.toNat - '0'.toNat)) 0

/-- The age coercion of `PostgresManager._upload_analytics` (and the
`patient_age` coercion of `_upload_specialists`):

`int(re.search(r'\d+', str(x)).group()) if pd.notna(x) and re.search(r'\d+', str(x)) else None`. -/
def coerceAge (x : PyValue) : PyValue :=
  if pdNotna x then
    match reSearchDigits (pyStr x).data with
    | some run => .vInt (digitsToNat run)
    | none => .vNull
  else .vNull

/-! Amount coercion `x if x.isdigit() else None`: Python `str.isdigit` is
only defined on strings, so calling it on `None` (or on an `int`) raises
`AttributeError`.  The coercion in the source has no null or type guard, so
it is modelled in the `Except` monad. -/

/-- A Python exception class, as far as the model needs to tell them apart. -/
inductive PyExn where
  | attributeError : PyExn
  | typeError : PyExn
  | dbError : String → PyExn
  deriving DecidableEq, Repr

/-- Python `s.isdigit()` on an actual string: non-empty and all digits. -/
def strIsdigit (s : String) : Bool :=
  !s.data.isEmpty && s.data.all Char.isDigit

/-- Python attribute access `x.isdigit()` on an arbitrary cell value:
only strings have the method, every other value raises `AttributeError`. -/
def pyIsdigit : PyValue → Except PyExn Bool
  | .vStr s => .ok (strIsdigit s)
  | _ => .error .attributeError

/-- The `total_amount` coercion of `_upload_analytics`:
`lambda x: x if x.isdigit() else None`, applied with no guard. -/
def coerceTotalAmount (x : PyValue) : Except PyExn PyValue := do
  if (← pyIsdigit x) then pure x else pure .vNull

/-- Columnwise apply of the amount coercion: the first raised exception
propagates out of the apply. -/
def applyTotalAmount (col : List PyValue) : Except PyExn (List PyValue) :=
  col.mapM coerceTotalAmount

/-! Spec-side formulations of the two coercions, written from the spec's
words ("reduced to their first embedded digit run as an integer", "nulled
unless purely numeric") and kept separate from the source model above, for
the refinement statements of claim C6. -/

/-- Spec wording of the first embedded digit run: skip the longest prefix
without digits, then take the run of digits that starts there. -/
def specFirstDigitRun (cs : List Char) : Option (List Char) :=
  match cs.dropWhile (fun c => !c.isDigit) with
  | [] => none
  | c :: rest => some (c :: rest.takeWhile Char.isDigit)

/-- Spec wording of the age coercion: the first embedded digit run as an
integer, null when no digit run is present. -/
def specAgeValue (s : String) : PyValue :=
  match specFirstDigitRun s.data with
  | some run => .vInt (digitsToNat run)
  | none => .vNull

/-- Spec wording of "purely numeric": non-empty and made of digits only. -/
def specPurelyNumeric (s : String) : Bool :=
  decide (s.data ≠ []) && s.data.all Char.isDigit

/-- Spec wording of the monetary-amount coercion on a string: the value is
kept when purely numeric, nulled otherwise. -/
def specAmountValue (s : String) : PyValue :=
  if specPurelyNumeric s then .vStr s else .vNull

/-! Column mapping (`BitrixManager.upload` lines 39-43 and
`PostgresManager._upload_analytics` lines 26-29): the column labels are
stripped, labels absent from the static source-to-target dictionary are
dropped, and the surviving labels are renamed through the dictionary. -/

/-- Dictionary lookup in an association list of (source label, target
field) pairs. -/
def lookupMap (m : List (String × String)) (k : String) : Option String :=
  (m.find? (fun p => p.1 == k)).map Prod.snd

/-- Keep the columns whose label is a key of the mapping, then rename each
through the mapping, as the subset-then-`rename` pair of lines does. -/
def renameColumns (m : List (String × String)) (cols : List String) : List String :=
  (cols.filter (fun c => (lookupMap m c).isSome)).map
    (fun c => (lookupMap m c).getD c)

/-- Python `str.strip()`: whitespace removed from both ends. -/
def pyStrip (s : String) : String :=
  ⟨((s.data.dropWhile Char.isWhitespace).reverse.dropWhile Char.isWhitespace).reverse⟩

/-- Column-label stripping, `df.columns.str.strip()`. -/
def stripColumns (cols : List String) : List String :=
  cols.map (fun c => pyStrip c)

/-- Inverse of a source-to-target mapping: swap every pair. -/
def invMap (m : List (String × String)) : List (String × String) :=
  m.map (fun p => (p.2, p.1))

/-! Dedupe against a persisted key set.  `BitrixManager.upload` (line 51)
keeps the records whose registration number is not among the keys returned
by the list query; `PostgresManager._upload_specialists` (line 81) keeps
the rows whose material number is not among the keys returned by the
SELECT. -/

/-- A CRM deal record: its registration-number key and its other cells. -/
structure DealRec where
  regNum : String
  cells : List (String × PyValue)
  deriving DecidableEq, Repr

/-- A database specialist record: its material-number key and its other
cells. -/
structure SpecRec where
  materialNumber : String
  cells : List (String × PyValue)
  deriving DecidableEq, Repr

/-- The list-comprehension filter of `BitrixManager.upload`: records whose
registration number is not among the already-uploaded keys. -/
def bitrixRecordsToUpload (uploaded : List String) (records : List DealRec) :
    List DealRec :=
  records.filter (fun r => !uploaded.contains r.regNum)

/-- The keys sent to the list query: the registration numbers of the batch
with falsy (empty) values removed (lines 47-48 of the CRM sink). -/
def bitrixQueryKeys (records : List DealRec) : List String :=
  (records.map (fun r => r.regNum)).filter (fun s => !s.isEmpty)

/-- The `isin` filter of `_upload_specialists`: rows whose material number
is not among the existing keys. -/
def pgNewRecords (existing : List String) (rows : List SpecRec) : List SpecRec :=
  rows.filter (fun r => !existing.contains r.materialNumber)

/-! Substring containment, Python's `in` on strings, used by the filename
classifier and the download-route handler. -/

/-- Whether `needle` occurs at the head of the character list. -/
def leadingMatch : List Char → List Char → Bool
  | [], _ => true
  | _ :: _, [] => false
  | a :: as, b :: bs => a == b && leadingMatch as bs

/-- Whether `needle` occurs anywhere in the character list. -/
def listContainsSub (needle : List Char) : List Char → Bool
  | [] => leadingMatch needle []
  | c :: cs => leadingMatch needle (c :: cs) || listContainsSub needle cs

/-- Python `needle in hay` on strings. -/
def strContainsSub (needle hay : String) : Bool :=
  listContainsSub needle.data hay.data

/-! File classification (`BrowserAutomation._manage_uploaded_files`,
`src/app/script.py` lines 407-441): the downloaded filename decides header
skips, bottom drops and the sink. -/

/-- The routing parameters chosen by `_manage_uploaded_files` for a file
name. -/
structure FileRouting where
  toBitrix : Bool
  isAnalytics : Bool
  skiprows : Nat
  bottomDrops : List Int
  deriving DecidableEq, Repr

/-- The if/elif/else classifier on the file name. -/
def manageFileRouting (file : String) : FileRouting :=
  if strContainsSub "Analytics" file then
    ⟨false, true, 3, [-1]⟩
  else if strContainsSub "Specialists" file then
    ⟨false, false, 2, []⟩
  else
    ⟨true, false, 0, [-1]⟩

/-- Which sink receives the file: `to_bitrix` selects the CRM sink, and
`PostgresManager.upload` then dispatches on `is_analytics`. -/
inductive SinkChoice where
  | bitrix
  | pgAnalytics
  | pgSpecialists
  deriving DecidableEq, Repr

/-- Sink selection from the routing flags, following the
`_manage_uploaded_files` tail and `PostgresManager.upload`. -/
def sinkFor (file : String) : SinkChoice :=
  let r := manageFileRouting file
  if r.toBitrix then .bitrix
  else if r.isAnalytics then .pgAnalytics
  else .pgSpecialists

/-- One step `df.drop(df.index[i])`: negative indices count from the end,
as in pandas positional indexing. -/
def dropRowAt (rows : List α) (i : Int) : List α :=
  rows.eraseIdx (if i < 0 then ((rows.length : Int) + i).toNat else i.toNat)

/-- The `for _index in bottom_drops` loop of `_manage_uploaded_files`. -/
def applyBottomDrops (drops : List Int) (rows : List α) : List α :=
  drops.foldl dropRowAt rows

/-- Rows surviving `read_csv(skiprows=...)` and the bottom-drop loop for a
given file name. -/
def processedRows (file : String) (rows : List α) : List α :=
  let r := manageFileRouting file
  applyBottomDrops r.bottomDrops (rows.drop r.skiprows)

/-! Element-interaction primitives.  The page is abstracted by three
success predicates on selectors (`page.fill`, `page.click`, `page.type`);
an interaction run is summarised by the selectors attempted in order, the
selector into which text (or the click) actually landed, and whether the
call raised. -/

/-- Success oracles for the underlying page operations. -/
structure PageModel where
  fillOk : String → Bool
  clickOk : String → Bool
  typeOk : String → Bool

/-- Outcome trace of one interaction call. -/
structure InputTrace where
  attempted : List String
  entered : Option String
  raised : Bool
  deriving DecidableEq, Repr

/-- Model of `BrowserAutomation.click_element` of `src/app/script.py` on a
selector list: try each selector, swallow the failure and move on, raise
only after the list is exhausted. -/
def clickElementApp (pg : PageModel) : List String → InputTrace
  | [] => ⟨[], none, true⟩
  | sel :: rest =>
    if pg.clickOk sel then ⟨[sel], some sel, false⟩
    else
      let t := clickElementApp pg rest
      ⟨sel :: t.attempted, t.entered, t.raised⟩

/-- Model of `BrowserAutomation.input_text` of `src/app/script.py` on a
selector list.  In the non-datetime branch the `page.fill` call sits in an
inner try/except whose handler only logs, after which the loop body logs
success and returns — so the first selector always ends the call, entered
or not.  In the datetime branch the click-sleep-type sequence is guarded
by the outer try/except, which does fall through to the next selector. -/
def inputTextApp (pg : PageModel) (isDatetime : Bool) : List String → InputTrace
  | [] => ⟨[], none, true⟩
  | sel :: rest =>
    if isDatetime then
      if pg.clickOk sel && pg.typeOk sel then ⟨[sel], some sel, false⟩
      else
        let t := inputTextApp pg isDatetime rest
        ⟨sel :: t.attempted, t.entered, t.raised⟩
    else
      ⟨[sel], if pg.fillOk sel then some sel else none, false⟩

/-- Model of `BrowserAutomation.input_text` of `src/browser_automation.py`
on a selector list: the except branch of the first iteration logs and then
raises, so no later selector is ever attempted. -/
def inputTextBA (pg : PageModel) : List String → InputTrace
  | [] => ⟨[], none, true⟩
  | sel :: _ =>
    if pg.fillOk sel then ⟨[sel], some sel, false⟩
    else ⟨[sel], none, true⟩

/-! Logging model: log lines only matter by level and message. -/

/-- One emitted log line. -/
inductive LogEvent where
  | info (msg : String)
  | warning (msg : String)
  | error (msg : String)
  deriving DecidableEq, Repr

/-! Download-route interception (`handle_route` inside
`_wait_for_download_url`, identical in both script variants): a matching
request is captured when nothing is captured yet, every matching request
is aborted, every other request continues. -/

/-- Verdict passed back to the browser for one intercepted request. -/
inductive RouteVerdict where
  | aborted
  | continued
  deriving DecidableEq, Repr

/-- Python truthiness of the `download_url` nonlocal (None and the empty
string are falsy). -/
def pyTruthyOptStr : Option String → Bool
  | none => false
  | some s => !(s == "")

/-- The `handle_route` callback: given the current captured URL and an
incoming request URL, the next captured URL and the verdict. -/
def handleRoute (downloadUrl : Option String) (url : String) :
    Option String × RouteVerdict :=
  if strContainsSub "/download/" url then
    if !pyTruthyOptStr downloadUrl then (some url, .aborted)
    else (downloadUrl, .aborted)
  else (downloadUrl, .continued)

/-- Folding `handle_route` over a whole session of intercepted requests,
collecting the verdicts in order. -/
def processRequests (reqs : List String) : Option String × List RouteVerdict :=
  reqs.foldl
    (fun acc url =>
      let s := handleRoute acc.1 url
      (s.1, acc.2 ++ [s.2]))
    (none, [])

/-- The verdict `handle_route` gives a request URL, independent of the
captured state. -/
def routeVerdictOf (u : String) : RouteVerdict :=
  if strContainsSub "/download/" u then .aborted else .continued

/-! Download-URL polling (`_wait_for_download_url`): the captured URL is
sampled once per second from elapsed time 0 up to the timeout; on timeout
the function logs an error and returns None. -/

/-- Default `timeout` parameter of `_wait_for_download_url`, in seconds. -/
def waitTimeoutDefault : Nat := 360

/-- The fixed `asyncio.sleep(1)` polling interval, in seconds. -/
def pollIntervalSeconds : Nat := 1

/-- The polling loop: `urlAt t` is the value of the captured URL at elapsed
second `t`; the loop samples at `t`, and while nothing is captured and fuel
remains it sleeps one interval and samples again. -/
def waitGo (urlAt : Nat → Option String) : Nat → Nat → Option String
  | 0, t => urlAt t
  | fuel + 1, t =>
    match urlAt t with
    | some u => some u
    | none => waitGo urlAt fuel (t + pollIntervalSeconds)

/-- Model of `_wait_for_download_url`: poll from elapsed time 0 for
`timeout` intervals. -/
def waitForDownloadUrl (urlAt : Nat → Option String) (timeout : Nat) :
    Option String :=
  waitGo urlAt timeout 0

/-- Log line emitted by `_wait_for_download_url` after the loop. -/
def waitLogLine (res : Option String) : LogEvent :=
  match res with
  | some _ => .info "URL found"
  | none => .error "URL not found after timeout"

/-! File download (`_download_file` of `src/app/script.py`): wait for the
URL, fetch it out-of-band, return the saved path, and turn every failure
into a logged error and a None result. -/

/-- Outcome of the out-of-band HTTP fetch of the captured URL. -/
inductive FetchOutcome where
  | ok (status : Nat)
  | exn (msg : String)
  deriving DecidableEq, Repr

/-- Body of the try block of `_download_file`: an uncaught exception is an
`Except.error`; otherwise the result and the log lines it emits. -/
def downloadFileBody (urlAt : Nat → Option String) (fetch : String → FetchOutcome)
    (filename : String) : Except String (Option String × List LogEvent) :=
  match waitForDownloadUrl urlAt waitTimeoutDefault with
  | none => .ok (none, [waitLogLine none])
  | some url =>
    match fetch url with
    | .exn msg => .error msg
    | .ok status =>
      if status != 200 then
        .ok (none, [waitLogLine (some url), .error "HTTP status error while downloading"])
      else
        .ok (some filename, [waitLogLine (some url), .info "file saved"])

/-- Model of `_download_file`: the outer try/except catches every raised
exception, logs it as an error and reports None to the caller. -/
def downloadFile (urlAt : Nat → Option String) (fetch : String → FetchOutcome)
    (filename : String) : Option String × List LogEvent :=
  match downloadFileBody urlAt fetch filename with
  | .ok r => r
  | .error msg => (none, [.error msg])

/-! CRM webhook layer (`BitrixManager._get_response` and
`_get_records_by_reg_nums`). -/

/-- Outcome of the POST to the webhook as `_get_response` observes it:
a parsed JSON body (for the list method, the registration numbers under
its result key), a requests-level failure, or a JSON-decoding failure. -/
inductive HttpOutcome where
  | ok (regNums : List String)
  | reqExn
  | jsonExn
  deriving DecidableEq, Repr

/-- Model of `_get_response`: each failure class is caught, logged as an
error, and leaves the `None` result in place; nothing is re-raised. -/
def getResponse (outcome : HttpOutcome) : Option (List String) × List LogEvent :=
  match outcome with
  | .ok regNums => (some regNums, [])
  | .reqExn => (none, [.error "request error"])
  | .jsonExn => (none, [.error "JSON decode error"])

/-- Model of the tail of `_get_records_by_reg_nums`: subscripting the
response with its result key.  On a `None` response this is `None['result']`,
which raises `TypeError`; otherwise the registration numbers are collected
into a set (modelled by `dedup`). -/
def getRecordsByRegNums (resp : Option (List String)) : Except PyExn (List String) :=
  match resp with
  | none => .error .typeError
  | some regNums => .ok regNums.dedup

/-! CRM upload loop (`BitrixManager.upload` lines 53-54 and
`_upload_to_bitrix`): one POST per record, every failure class of one POST
caught and logged inside `_upload_to_bitrix`, nothing retried. -/

/-- CRM response to one add POST, as `_upload_to_bitrix` distinguishes
them. -/
inductive CrmResp where
  | ok
  | errField
  | httpErr (status : Nat)
  | reqExn
  deriving DecidableEq, Repr

/-- Trace of the CRM upload loop: the records POSTed in order, how many
responses carried an error field (logged as warnings), and whether the
loop raised. -/
structure CrmTrace where
  posted : List DealRec
  warningsLogged : Nat
  raised : Bool
  deriving DecidableEq, Repr

/-- Model of the `for record in records_to_upload` loop: each record is
POSTed exactly once; an error-field response only increments the warning
log; no response stops the loop. -/
def bitrixUploadLoop (respond : DealRec → CrmResp) : List DealRec → CrmTrace
  | [] => ⟨[], 0, false⟩
  | r :: rest =>
    let t := bitrixUploadLoop respond rest
    let w := match respond r with
      | .errField => 1
      | _ => 0
    ⟨r :: t.posted, w + t.warningsLogged, t.raised⟩

/-- Model of the whole `BitrixManager.upload` run: list query, dedupe
filter, POST loop.  A failed list query makes `_get_records_by_reg_nums`
raise out of the upload. -/
def bitrixUploadRun (outcome : HttpOutcome) (respond : DealRec → CrmResp)
    (records : List DealRec) : Except PyExn CrmTrace := do
  let uploaded ← getRecordsByRegNums (getResponse outcome).1
  pure (bitrixUploadLoop respond (bitrixRecordsToUpload uploaded records))

/-! Database transaction discipline (`_upload_analytics` lines 49-57 and
`_upload_specialists` lines 91-99): `add_all` then one `commit`; on
failure `rollback` restores the table and the error is re-raised. -/

/-- Commit of pending rows on top of a table: on success the table gains
every pending row; on failure the rollback leaves the table as it was and
the error is re-raised (the first component). -/
def commitOrRollback (commit : List α → Except PyExn Unit) (table pending : List α) :
    Option PyExn × List α :=
  match commit pending with
  | .ok _ => (none, table ++ pending)
  | .error e => (some e, table)

/-! Analytics transform pipeline (`_upload_analytics` lines 26-47): rename
columns, normalize nulls, coerce `age`, coerce `total_amount`, build the
records, insert them all. -/

/-- Rename-and-drop on one row: the label is stripped, cells whose stripped
label is not a key of the mapping are dropped, the rest are relabelled. -/
def renameRowCells (m : List (String × String)) (row : List (String × PyValue)) :
    List (String × PyValue) :=
  (row.filter (fun kv => (lookupMap m (pyStrip kv.1)).isSome)).map
    (fun kv => ((lookupMap m (pyStrip kv.1)).getD (pyStrip kv.1), kv.2))

/-- Age coercion on one cell: only the `age` column is touched. -/
def coerceAgeCell (kv : String × PyValue) : String × PyValue :=
  if kv.1 = "age" then (kv.1, coerceAge kv.2) else kv

/-- Amount coercion on one cell: only the `total_amount` column is touched,
and there it may raise. -/
def coerceAmountCell (kv : String × PyValue) : Except PyExn (String × PyValue) :=
  if kv.1 = "total_amount" then do
    pure (kv.1, ← coerceTotalAmount kv.2)
  else pure kv

/-- The whole per-row transform of `_upload_analytics`, in source order:
rename, null-normalize, age coercion, amount coercion. -/
def analyticsTransform (m : List (String × String)) (row : List (String × PyValue)) :
    Except PyExn (List (String × PyValue)) :=
  (((renameRowCells m row).map (fun kv => (kv.1, normalizeNull kv.2))).map
    coerceAgeCell).mapM coerceAmountCell

/-- Model of `_upload_analytics` against a table state: transform every
row (any raised exception leaves the table untouched), then `add_all` and
commit every transformed record — there is no dedupe filter. -/
def uploadAnalyticsRun (m : List (String × String))
    (commit : List (List (String × PyValue)) → Except PyExn Unit)
    (table : List (List (String × PyValue))) (df : List (List (String × PyValue))) :
    Option PyExn × List (List (String × PyValue)) :=
  match df.mapM (analyticsTransform m) with
  | .error e => (some e, table)
  | .ok recs => commitOrRollback commit table recs

/-! Helper lemmas. -/

/-- A URL containing the download marker is not the empty string. -/
theorem marker_url_ne_empty {u : String}
    (h : strContainsSub "/download/" u = true) : (u == "") = false := by
  rcases eq_or_ne u "" with rfl | hne
  · exact absurd h (by decide)
  · simp only [beq_eq_false_iff_ne, ne_eq]
    exact hne

/-- Once a marker URL is captured, folding further requests never changes
the captured URL and assigns every request its verdict. -/
theorem processRequests_fold_captured (u : String)
    (hu : strContainsSub "/download/" u = true) :
    ∀ (reqs : List String) (acc : List RouteVerdict),
      reqs.foldl
        (fun acc url =>
          let s := handleRoute acc.1 url
          (s.1, acc.2 ++ [s.2]))
        (some u, acc)
      = (some u, acc ++ reqs.map routeVerdictOf) := by
  intro reqs
  induction reqs with
  | nil => intro acc; simp
  | cons r rest ih =>
    intro acc
    simp only [List.foldl_cons, List.map_cons]
    have hstep : handleRoute (some u) r = (some u, routeVerdictOf r) := by
      simp only [handleRoute, routeVerdictOf, pyTruthyOptStr, marker_url_ne_empty hu,
        Bool.not_false]
      by_cases hr : strContainsSub "/download/" r = true
      · simp [hr]
      · simp [hr]
    rw [hstep, ih]
    simp

/-- From an empty capture state, the fold captures the first marker URL
and assigns every request its verdict. -/
theorem processRequests_fold_none :
    ∀ (reqs : List String) (acc : List RouteVerdict),
      reqs.foldl
        (fun acc url =>
          let s := handleRoute acc.1 url
          (s.1, acc.2 ++ [s.2]))
        (none, acc)
      = (reqs.find? (fun v => strContainsSub "/download/" v),
         acc ++ reqs.map routeVerdictOf) := by
  intro reqs
  induction reqs with
  | nil => intro acc; simp
  | cons r rest ih =>
    intro acc
    simp only [List.foldl_cons, List.map_cons, List.find?]
    by_cases hr : strContainsSub "/download/" r = true
    · have hstep : handleRoute none r = (some r, routeVerdictOf r) := by
        unfold handleRoute routeVerdictOf pyTruthyOptStr
        simp [hr]
      rw [hstep, processRequests_fold_captured r hr rest]
      simp [hr]
    · have hstep : handleRoute none r = (none, routeVerdictOf r) := by
        unfold handleRoute routeVerdictOf
        simp [hr]
      rw [hstep, ih]
      simp [hr]

/-! Claim theorems. -/

/-- C4: over every sequence of intercepted requests, the first request whose
URL contains the download marker has its URL captured, every matching
request (first or subsequent) is aborted without overwriting the captured
URL, and every non-matching request passes through with the state
unmodified. -/
theorem c4_route_single_capture (reqs : List String) :
    processRequests reqs =
      (reqs.find? (fun v => strContainsSub "/download/" v),
       reqs.map (fun v =>
         if strContainsSub "/download/" v then RouteVerdict.aborted
         else RouteVerdict.continued)) ∧
    (∀ (st : Option String) (v : String), strContainsSub "/download/" v = false →
      handleRoute st v = (st, RouteVerdict.continued)) := by
  constructor
  · unfold processRequests
    rw [processRequests_fold_none reqs []]
    rfl
  · intro st v hv
    unfold handleRoute
    simp [hv]

/-- C4 witness: in a session where the marker URL appears twice, only the
first occurrence is captured, both are aborted, and the other request
continues with the state unchanged. -/
theorem c4_route_single_capture_witness :
    processRequests ["a", "p/download/1", "q/download/2"] =
      (some "p/download/1",
       [RouteVerdict.continued, RouteVerdict.aborted, RouteVerdict.aborted]) ∧
    handleRoute (some "p/download/1") "a" = (some "p/download/1", RouteVerdict.continued) := by
  have h := c4_route_single_capture ["a", "p/download/1", "q/download/2"]
  refine ⟨?_, (c4_route_single_capture []).2 (some "p/download/1") "a" (by decide)⟩
  rw [h.1]
  decide

/-- C3: the claim says `input_text` follows the same selector-list fallback
discipline as `click_element`.  It does not: with selectors `a`, `b` where
fill fails on `a` and would succeed on `b`, the `src/app/script.py` variant
returns success after attempting only `a` with no text entered (the fill
failure is swallowed by an inner try/except), and the
`src/browser_automation.py` variant raises after attempting only `a`;
`click_element`, by contrast, does fall through to `b` and succeed. -/
theorem c3_fill_fallback_divergence :
    inputTextApp ⟨fun s => s == "b", fun _ => true, fun _ => true⟩ false ["a", "b"] =
      ⟨["a"], none, false⟩ ∧
    inputTextBA ⟨fun s => s == "b", fun _ => true, fun _ => true⟩ ["a", "b"] =
      ⟨["a"], none, true⟩ ∧
    clickElementApp ⟨fun _ => false, fun s => s == "b", fun _ => true⟩ ["a", "b"] =
      ⟨["a", "b"], some "b", false⟩ := by
  refine ⟨?_, ?_, ?_⟩ <;> decide

/-- C8: the two sinks have asymmetric failure policies.  In the CRM sink
every record of the batch is POSTed exactly once whatever the responses
are, an error-field response is only counted into the warning log, and the
loop never raises (fail-open, partial success accepted).  In the database
sink a failing commit rolls the table back to its prior state and re-raises
the error, while a successful commit inserts all pending rows in one
transaction (fail-closed). -/
theorem c8_failure_asymmetry
    (respond : DealRec → CrmResp) (records : List DealRec)
    (commit : List (List (String × PyValue)) → Except PyExn Unit)
    (table pending : List (List (String × PyValue))) :
    ((bitrixUploadLoop respond records).posted = records ∧
      (bitrixUploadLoop respond records).warningsLogged =
        records.countP (fun r => respond r == CrmResp.errField) ∧
      (bitrixUploadLoop respond records).raised = false) ∧
    (∀ e : PyExn, commit pending = .error e →
      commitOrRollback commit table pending = (some e, table)) ∧
    (commit pending = .ok () →
      commitOrRollback commit table pending = (none, table ++ pending)) := by
  refine ⟨?_, ?_, ?_⟩
  · induction records with
    | nil => simp [bitrixUploadLoop]
    | cons r rest ih =>
      cases h : respond r <;>
        simp [bitrixUploadLoop, h, ih.1, ih.2.1, ih.2.2, List.countP_cons, Nat.add_comm]
  · intro e h
    simp [commitOrRollback, h]
  · intro h
    simp [commitOrRollback, h]

/-- C8 witness: a run where every CRM response carries the error field still
POSTs both records and does not raise, a failing commit leaves the table as
it was and re-raises, and a successful commit appends the pending row. -/
theorem c8_failure_asymmetry_witness :
    (bitrixUploadLoop (fun _ => CrmResp.errField) [⟨"A", []⟩, ⟨"B", []⟩]).posted =
      [⟨"A", []⟩, ⟨"B", []⟩] ∧
    (bitrixUploadLoop (fun _ => CrmResp.errField) [⟨"A", []⟩, ⟨"B", []⟩]).raised = false ∧
    commitOrRollback (fun _ => Except.error (PyExn.dbError "insert failed"))
      [[("age", PyValue.vInt 3)]] [[("age", PyValue.vInt 4)]] =
      (some (PyExn.dbError "insert failed"), [[("age", PyValue.vInt 3)]]) ∧
    commitOrRollback (fun _ => Except.ok ())
      [[("age", PyValue.vInt 3)]] [[("age", PyValue.vInt 4)]] =
      (none, [[("age", PyValue.vInt 3)], [("age", PyValue.vInt 4)]]) := by
  have h := c8_failure_asymmetry (fun _ => CrmResp.errField) [⟨"A", []⟩, ⟨"B", []⟩]
    (fun _ => Except.error (PyExn.dbError "insert failed"))
    [[("age", PyValue.vInt 3)]] [[("age", PyValue.vInt 4)]]
  have h2 := c8_failure_asymmetry (fun _ => CrmResp.errField) [⟨"A", []⟩, ⟨"B", []⟩]
    (fun _ => Except.ok ())
    [[("age", PyValue.vInt 3)]] [[("age", PyValue.vInt 4)]]
  exact ⟨h.1.1, h.1.2.2, h.2.1 (PyExn.dbError "insert failed") rfl, h2.2.2 rfl⟩

/-- C9 counterexample: the claim says the CRM upload does not itself crash
on a failed list query, but when the webhook request fails `_get_response`
returns `None` and `_get_records_by_reg_nums` subscripts it, so the upload
raises `TypeError`. -/
theorem c9_upload_crash_cex :
    bitrixUploadRun .reqExn (fun _ => CrmResp.ok) [⟨"A", []⟩] =
      .error .typeError := rfl

/-- C9 (amended): a network/request failure or a JSON decode failure in a
webhook call is logged as an error and `_get_response` returns a null
result instead of raising; however the list-query caller
`_get_records_by_reg_nums` dereferences that null result, so the CRM
upload raises a `TypeError` on a failed list query instead of deciding to
continue. -/
theorem c9_webhook_failure_handling (outcome : HttpOutcome)
    (h : outcome = .reqExn ∨ outcome = .jsonExn) :
    (getResponse outcome).1 = none ∧
    (∃ msg, LogEvent.error msg ∈ (getResponse outcome).2) ∧
    (∀ (respond : DealRec → CrmResp) (records : List DealRec),
      bitrixUploadRun outcome respond records = .error .typeError) := by
  rcases h with rfl | rfl
  · exact ⟨rfl, ⟨"request error", by simp [getResponse]⟩, fun _ _ => rfl⟩
  · exact ⟨rfl, ⟨"JSON decode error", by simp [getResponse]⟩, fun _ _ => rfl⟩

/-- C9 witness: the request-failure outcome, instantiated. -/
theorem c9_webhook_failure_handling_witness :
    (getResponse .reqExn).1 = none ∧
    (∃ msg, LogEvent.error msg ∈ (getResponse .reqExn).2) ∧
    bitrixUploadRun .reqExn (fun _ => CrmResp.errField) [⟨"B", []⟩] =
      .error .typeError := by
  have h := c9_webhook_failure_handling .reqExn (Or.inl rfl)
  exact ⟨h.1, h.2.1, h.2.2 (fun _ => CrmResp.errField) [⟨"B", []⟩]⟩

/-- C1 counterexample: the claim's run-level invariant fails when a batch
carries the same dedupe key twice — with no persisted keys, both sinks
submit both records, so the key is inserted twice within one run (the CRM
loop POSTs it twice, the database filter keeps both rows). -/
theorem c1_duplicate_key_cex :
    ((bitrixUploadLoop (fun _ => CrmResp.ok)
        (bitrixRecordsToUpload [] [⟨"C", []⟩, ⟨"C", []⟩])).posted.map
      (fun r => r.regNum)).count "C" = 2 ∧
    ((pgNewRecords [] [⟨"C", []⟩, ⟨"C", []⟩]).map
      (fun r => r.materialNumber)).count "C" = 2 := by
  decide

/-- C1 (amended): in both sinks exactly the records whose key is absent
from the persisted set are submitted (with the spec's example instance),
and provided the incoming batch has pairwise distinct keys, no key is
submitted for insert more than once in the run; a batch repeating a key
submits it once per occurrence. -/
theorem c1_dedupe_submission (uploaded existing : List String)
    (records : List DealRec) (rows : List SpecRec)
    (hb : (records.map (fun r => r.regNum)).Nodup)
    (hp : (rows.map (fun r => r.materialNumber)).Nodup) :
    (∀ r, r ∈ bitrixRecordsToUpload uploaded records ↔
      (r ∈ records ∧ r.regNum ∉ uploaded)) ∧
    (∀ r, r ∈ pgNewRecords existing rows ↔
      (r ∈ rows ∧ r.materialNumber ∉ existing)) ∧
    bitrixRecordsToUpload ["A", "B"] [⟨"A", []⟩, ⟨"C", []⟩, ⟨"D", []⟩] =
      [⟨"C", []⟩, ⟨"D", []⟩] ∧
    pgNewRecords ["A", "B"] [⟨"A", []⟩, ⟨"C", []⟩, ⟨"D", []⟩] =
      [⟨"C", []⟩, ⟨"D", []⟩] ∧
    (∀ k, ((bitrixRecordsToUpload uploaded records).map (fun r => r.regNum)).count k ≤ 1) ∧
    (∀ k, ((pgNewRecords existing rows).map (fun r => r.materialNumber)).count k ≤ 1) := by
  refine ⟨?_, ?_, by decide, by decide, ?_, ?_⟩
  · intro r
    simp [bitrixRecordsToUpload, List.mem_filter]
  · intro r
    simp [pgNewRecords, List.mem_filter]
  · intro k
    have hsub : ((bitrixRecordsToUpload uploaded records).map (fun r => r.regNum)).Sublist
        (records.map (fun r => r.regNum)) :=
      (List.filter_sublist records).map (fun r => r.regNum)
    exact le_trans (hsub.count_le k) (List.nodup_iff_count_le_one.mp hb k)
  · intro k
    have hsub : ((pgNewRecords existing rows).map (fun r => r.materialNumber)).Sublist
        (rows.map (fun r => r.materialNumber)) :=
      (List.filter_sublist rows).map (fun r => r.materialNumber)
    exact le_trans (hsub.count_le k) (List.nodup_iff_count_le_one.mp hp k)

/-- C1 witness: the spec's example instance, with distinct batch keys. -/
theorem c1_dedupe_submission_witness :
    bitrixRecordsToUpload ["A", "B"] [⟨"A", []⟩, ⟨"C", []⟩, ⟨"D", []⟩] =
      [⟨"C", []⟩, ⟨"D", []⟩] ∧
    pgNewRecords ["A", "B"] [⟨"A", []⟩, ⟨"C", []⟩, ⟨"D", []⟩] =
      [⟨"C", []⟩, ⟨"D", []⟩] ∧
    ((bitrixRecordsToUpload ["A", "B"]
        [⟨"A", []⟩, ⟨"C", []⟩, ⟨"D", []⟩]).map (fun r => r.regNum)).count "C" ≤ 1 := by
  have h := c1_dedupe_submission ["A", "B"] ["A", "B"]
    [⟨"A", []⟩, ⟨"C", []⟩, ⟨"D", []⟩] [⟨"A", []⟩, ⟨"C", []⟩, ⟨"D", []⟩]
    (by decide) (by decide)
  exact ⟨h.2.2.1, h.2.2.2.1, h.2.2.2.2.1 "C"⟩

/-- If the captured URL stays empty through every sampled second, the
polling loop returns nothing. -/
theorem waitGo_eq_none (urlAt : Nat → Option String) :
    ∀ (fuel t0 : Nat), (∀ t, t0 ≤ t → t ≤ t0 + fuel → urlAt t = none) →
      waitGo urlAt fuel t0 = none := by
  intro fuel
  induction fuel with
  | zero =>
    intro t0 h
    exact h t0 le_rfl (Nat.le_add_right _ _)
  | succ n ih =>
    intro t0 h
    have h0 : urlAt t0 = none := h t0 le_rfl (Nat.le_add_right _ _)
    simp only [waitGo, h0]
    exact ih (t0 + pollIntervalSeconds) (fun t ht1 ht2 => by
      refine h t (le_trans (Nat.le_add_right t0 1) ht1) ?_
      simpa [pollIntervalSeconds, Nat.add_assoc, Nat.add_comm 1 n] using ht2)

/-- C5: the URL wait polls once per second (interval constant 1) up to the
default timeout of 360 seconds and returns None when no URL appeared by
then; and every failed download — no URL, a non-200 HTTP status, or a
fetch exception — is logged as an error and reported to the caller as a
None result instead of being raised. -/
theorem c5_download_failure_handling (urlAt : Nat → Option String)
    (fetch : String → FetchOutcome) (filename : String) :
    waitTimeoutDefault = 360 ∧ pollIntervalSeconds = 1 ∧
    ((∀ t, t ≤ waitTimeoutDefault → urlAt t = none) →
      waitForDownloadUrl urlAt waitTimeoutDefault = none) ∧
    (waitForDownloadUrl urlAt waitTimeoutDefault = none →
      downloadFile urlAt fetch filename =
        (none, [LogEvent.error "URL not found after timeout"])) ∧
    (∀ url status, waitForDownloadUrl urlAt waitTimeoutDefault = some url →
      fetch url = .ok status → status ≠ 200 →
      (downloadFile urlAt fetch filename).1 = none ∧
        LogEvent.error "HTTP status error while downloading" ∈
          (downloadFile urlAt fetch filename).2) ∧
    (∀ url msg, waitForDownloadUrl urlAt waitTimeoutDefault = some url →
      fetch url = .exn msg →
      (downloadFile urlAt fetch filename).1 = none ∧
        LogEvent.error msg ∈ (downloadFile urlAt fetch filename).2) := by
  refine ⟨rfl, rfl, ?_, ?_, ?_, ?_⟩
  · intro h
    exact waitGo_eq_none urlAt waitTimeoutDefault 0 (fun t _ ht2 => h t (by simpa using ht2))
  · intro h
    simp [downloadFile, downloadFileBody, h, waitLogLine]
  · intro url status hurl hfetch hstatus
    have hne : (status != 200) = true := by simpa using hstatus
    simp [downloadFile, downloadFileBody, hurl, hfetch, hne]
  · intro url msg hurl hfetch
    simp [downloadFile, downloadFileBody, hurl, hfetch]

/-- C5 witness: a session where the URL never appears times out to a logged
error and a None result, and a session whose fetch raises is caught, logged
and reported as None. -/
theorem c5_download_failure_handling_witness :
    waitForDownloadUrl (fun _ => none) waitTimeoutDefault = none ∧
    downloadFile (fun _ => none) (fun _ => FetchOutcome.exn "boom") "f.csv" =
      (none, [LogEvent.error "URL not found after timeout"]) ∧
    (downloadFile (fun _ => some "u/download/x") (fun _ => FetchOutcome.exn "boom")
        "f.csv").1 = none ∧
    LogEvent.error "boom" ∈
      (downloadFile (fun _ => some "u/download/x") (fun _ => FetchOutcome.exn "boom")
        "f.csv").2 := by
  have h1 := c5_download_failure_handling (fun _ => none)
    (fun _ => FetchOutcome.exn "boom") "f.csv"
  have h2 := c5_download_failure_handling (fun _ => some "u/download/x")
    (fun _ => FetchOutcome.exn "boom") "f.csv"
  have hn := h1.2.2.1 (fun _ _ => rfl)
  have he := h2.2.2.2.2.2 "u/download/x" "boom" rfl rfl
  exact ⟨hn, h1.2.2.2.1 hn, he.1, he.2⟩

/-- Erasing the element at the last position is `dropLast`. -/
theorem eraseIdx_pred_length {α : Type} :
    ∀ (l : List α), l.eraseIdx (l.length - 1) = l.dropLast
  | [] => rfl
  | [_] => rfl
  | a :: b :: t => by
    have ih := eraseIdx_pred_length (b :: t)
    have hlen : (a :: b :: t).length - 1 = ((b :: t).length - 1) + 1 := by
      simp [List.length_cons]
    rw [hlen, List.eraseIdx_cons_succ, ih]
    rfl

/-- Pandas `df.drop(df.index[-1])` removes the last row. -/
theorem dropRowAt_neg_one {α : Type} (l : List α) : dropRowAt l (-1) = l.dropLast := by
  have hn : ((l.length : Int) + -1).toNat = l.length - 1 := by omega
  simp only [dropRowAt, if_pos (by decide : (-1 : Int) < 0), hn]
  exact eraseIdx_pred_length l

/-- C2: record type is decided by filename substring matching in priority
order — a name containing "Analytics" is processed as an analytics record
(three header rows skipped, last data row dropped, all transformed rows
inserted with no dedupe check), otherwise a name containing "Specialists"
is processed as a specialist record (two header rows skipped, deduped by
material number against the existing store), and any other name is routed
to the CRM sink instead of the database. -/
theorem c2_file_classification (α : Type) (file : String) (rows : List α)
    (existing : List String) (recs : List SpecRec) :
    (strContainsSub "Analytics" file = true →
      manageFileRouting file = ⟨false, true, 3, [-1]⟩ ∧
      sinkFor file = .pgAnalytics ∧
      processedRows file rows = (rows.drop 3).dropLast ∧
      (∀ (m : List (String × String))
          (commit : List (List (String × PyValue)) → Except PyExn Unit)
          (table df trans : List (List (String × PyValue))),
        df.mapM (analyticsTransform m) = .ok trans → commit trans = .ok () →
        uploadAnalyticsRun m commit table df = (none, table ++ trans))) ∧
    (strContainsSub "Analytics" file = false →
      strContainsSub "Specialists" file = true →
      manageFileRouting file = ⟨false, false, 2, []⟩ ∧
      sinkFor file = .pgSpecialists ∧
      processedRows file rows = rows.drop 2 ∧
      (∀ r, r ∈ pgNewRecords existing recs ↔
        (r ∈ recs ∧ r.materialNumber ∉ existing))) ∧
    (strContainsSub "Analytics" file = false →
      strContainsSub "Specialists" file = false →
      manageFileRouting file = ⟨true, false, 0, [-1]⟩ ∧
      sinkFor file = .bitrix ∧
      processedRows file rows = rows.dropLast) := by
  refine ⟨?_, ?_, ?_⟩
  · intro hA
    have hroute : manageFileRouting file = ⟨false, true, 3, [-1]⟩ := by
      simp [manageFileRouting, hA]
    refine ⟨hroute, by simp [sinkFor, hroute], ?_, ?_⟩
    · simp [processedRows, hroute, applyBottomDrops, dropRowAt_neg_one]
    · intro m commit table df trans h1 h2
      unfold uploadAnalyticsRun
      rw [h1]
      simp [commitOrRollback, h2]
  · intro hA hS
    have hroute : manageFileRouting file = ⟨false, false, 2, []⟩ := by
      simp [manageFileRouting, hA, hS]
    refine ⟨hroute, by simp [sinkFor, hroute], ?_, ?_⟩
    · simp [processedRows, hroute, applyBottomDrops]
    · intro r
      simp [pgNewRecords, List.mem_filter]
  · intro hA hS
    have hroute : manageFileRouting file = ⟨true, false, 0, [-1]⟩ := by
      simp [manageFileRouting, hA, hS]
    refine ⟨hroute, by simp [sinkFor, hroute], ?_⟩
    simp [processedRows, hroute, applyBottomDrops, dropRowAt_neg_one]

/-- C2 witness: an analytics name, a specialists name and a generic name,
classified and processed on concrete rows. -/
theorem c2_file_classification_witness :
    manageFileRouting "Report_Analytics_1.csv" = ⟨false, true, 3, [-1]⟩ ∧
    sinkFor "Report_Analytics_1.csv" = .pgAnalytics ∧
    processedRows "Report_Analytics_1.csv" [0, 1, 2, 3, 4] = [3] ∧
    sinkFor "Report_Specialists_1.csv" = .pgSpecialists ∧
    processedRows "Report_Specialists_1.csv" [0, 1, 2, 3] = [2, 3] ∧
    sinkFor "users_1.csv" = .bitrix ∧
    uploadAnalyticsRun [] (fun _ => Except.ok ()) [] [] = (none, []) := by
  have hA := (c2_file_classification Nat "Report_Analytics_1.csv" [0, 1, 2, 3, 4]
    [] []).1 (by decide)
  have hS := (c2_file_classification Nat "Report_Specialists_1.csv" [0, 1, 2, 3]
    [] []).2.1 (by decide) (by decide)
  have hU := (c2_file_classification Nat "users_1.csv" [] [] []).2.2
    (by decide) (by decide)
  refine ⟨hA.1, hA.2.1, ?_, hS.2.1, ?_, hU.2.1,
    hA.2.2.2 [] (fun _ => Except.ok ()) [] [] [] rfl rfl⟩
  · rw [hA.2.2.1]
    decide
  · rw [hS.2.2.1]
    decide

/-- The head digit run of the source model is `takeWhile isDigit`. -/
theorem digitRunHead_eq_takeWhile :
    ∀ cs : List Char, digitRunHead cs = cs.takeWhile Char.isDigit
  | [] => rfl
  | c :: cs => by
    by_cases h : c.isDigit
    · simp [digitRunHead, List.takeWhile_cons, h, digitRunHead_eq_takeWhile cs]
    · simp [digitRunHead, List.takeWhile_cons, h]

/-- The source's regex scan agrees with the spec's dropWhile/takeWhile
formulation of the first embedded digit run. -/
theorem reSearchDigits_eq_spec :
    ∀ cs : List Char, reSearchDigits cs = specFirstDigitRun cs
  | [] => rfl
  | c :: cs => by
    by_cases h : c.isDigit
    · simp [reSearchDigits, specFirstDigitRun, List.dropWhile_cons, h,
        digitRunHead_eq_takeWhile cs]
    · simp only [reSearchDigits, if_neg h, reSearchDigits_eq_spec cs]
      simp [specFirstDigitRun, List.dropWhile_cons, h]

/-- Bind on an `ok` value reduces to the continuation. -/
theorem exceptBind_ok {ε α β : Type} (a : α) (k : α → Except ε β) :
    (Except.ok a >>= k : Except ε β) = k a := rfl

/-- Bind on an `error` value short-circuits. -/
theorem exceptBind_error {ε α β : Type} (e : ε) (k : α → Except ε β) :
    (Except.error e >>= k : Except ε β) = Except.error e := rfl

/-- C6: the age coercion reduces every string to its first embedded digit
run as an integer and yields null when no digit run is present — in
particular "45 лет" gives 45, "n/a" gives null and "" gives null — and the
monetary-amount coercion on a string keeps the value exactly when the
string is purely numeric and yields null otherwise. -/
theorem c6_field_coercions :
    (∀ s : String, coerceAge (.vStr s) = specAgeValue s) ∧
    coerceAge (.vStr "45 лет") = .vInt 45 ∧
    coerceAge (.vStr "n/a") = .vNull ∧
    coerceAge (.vStr "") = .vNull ∧
    (∀ s : String, coerceTotalAmount (.vStr s) = .ok (specAmountValue s)) := by
  refine ⟨?_, by decide, by decide, by decide, ?_⟩
  · intro s
    simp [coerceAge, specAgeValue, pdNotna, pyStr, reSearchDigits_eq_spec]
  · intro s
    have h : strIsdigit s = specPurelyNumeric s := by
      unfold strIsdigit specPurelyNumeric
      cases s.data <;> simp
    unfold specAmountValue
    rw [← h]
    by_cases hd : strIsdigit s = true
    · simp only [coerceTotalAmount, pyIsdigit, exceptBind_ok, hd, if_pos]
      rfl
    · simp only [Bool.not_eq_true] at hd
      simp only [coerceTotalAmount, pyIsdigit, exceptBind_ok, hd]
      rfl

/-- Lookup on a cons cell of the mapping. -/
theorem lookupMap_cons (a b c : String) (rest : List (String × String)) :
    lookupMap ((a, b) :: rest) c =
      if (a == c) = true then some b else lookupMap rest c := by
  by_cases h : (a == c) = true
  · simp [lookupMap, List.find?, h]
  · simp [lookupMap, List.find?, h]

/-- A successful lookup exhibits its pair in the mapping. -/
theorem lookupMap_mem : ∀ {m : List (String × String)} {c t : String},
    lookupMap m c = some t → (c, t) ∈ m
  | [], c, t, h => by simp [lookupMap] at h
  | (a, b) :: rest, c, t, h => by
    rw [lookupMap_cons] at h
    by_cases hac : (a == c) = true
    · rw [if_pos hac] at h
      obtain rfl : b = t := by injection h
      obtain rfl : a = c := by simpa using hac
      exact List.mem_cons_self _ _
    · rw [if_neg hac] at h
      exact List.mem_cons_of_mem _ (lookupMap_mem h)

/-- When the target fields of the mapping are pairwise distinct, the
swapped mapping sends the target of a source label back to that label. -/
theorem lookupMap_invMap : ∀ {m : List (String × String)} {c t : String},
    (m.map Prod.snd).Nodup → lookupMap m c = some t →
    lookupMap (invMap m) t = some c
  | [], c, t, _, h => by simp [lookupMap] at h
  | (a, b) :: rest, c, t, hnd, h => by
    simp only [List.map_cons, List.nodup_cons] at hnd
    rw [lookupMap_cons] at h
    rw [show invMap ((a, b) :: rest) = (b, a) :: invMap rest from rfl, lookupMap_cons]
    by_cases hac : (a == c) = true
    · rw [if_pos hac] at h
      obtain rfl : b = t := by injection h
      obtain rfl : a = c := by simpa using hac
      simp
    · rw [if_neg hac] at h
      have hmem : (c, t) ∈ rest := lookupMap_mem h
      have hbt : ¬((b == t) = true) := by
        rcases eq_or_ne b t with rfl | hne
        · exact absurd (List.mem_map_of_mem Prod.snd hmem) hnd.1
        · simpa using hne
      rw [if_neg hbt]
      exact lookupMap_invMap hnd.2 h

/-- An unmapped leading column is dropped by the rename step. -/
theorem renameColumns_cons_none {m : List (String × String)} {c : String}
    (h : lookupMap m c = none) (cols : List String) :
    renameColumns m (c :: cols) = renameColumns m cols := by
  simp [renameColumns, List.filter_cons, h]

/-- A mapped leading column is renamed to its target by the rename step. -/
theorem renameColumns_cons_some {m : List (String × String)} {c t : String}
    (h : lookupMap m c = some t) (cols : List String) :
    renameColumns m (c :: cols) = t :: renameColumns m cols := by
  simp [renameColumns, List.filter_cons, h]

/-- C7: the column-rename step drops every source column absent from the
static mapping and renames every present one; and renaming through the
mapping and then through the inverse mapping recovers the original labels
for exactly the mapped columns, provided the mapping's target fields are
pairwise distinct. -/
theorem c7_column_mapping (m : List (String × String)) (cols : List String)
    (hinj : (m.map Prod.snd).Nodup) :
    (∀ (c : String) (cs : List String), lookupMap m c = none →
      renameColumns m (c :: cs) = renameColumns m cs) ∧
    (∀ (c t : String) (cs : List String), lookupMap m c = some t →
      renameColumns m (c :: cs) = t :: renameColumns m cs) ∧
    renameColumns (invMap m) (renameColumns m cols) =
      cols.filter (fun c => (lookupMap m c).isSome) := by
  refine ⟨fun c cs h => renameColumns_cons_none h cs,
          fun c t cs h => renameColumns_cons_some h cs, ?_⟩
  induction cols with
  | nil => rfl
  | cons c cs ih =>
    cases hc : lookupMap m c with
    | none =>
      rw [renameColumns_cons_none hc, ih, List.filter_cons]
      simp [hc]
    | some t =>
      rw [renameColumns_cons_some hc,
        renameColumns_cons_some (lookupMap_invMap hinj hc), ih, List.filter_cons]
      simp [hc]

/-- C7 witness: a concrete mapping and column list, round-tripped. -/
theorem c7_column_mapping_witness :
    renameColumns [("Возраст", "age"), ("Имя", "name")]
      ["Возраст", "junk", "Имя"] = ["age", "name"] ∧
    renameColumns (invMap [("Возраст", "age"), ("Имя", "name")])
      (renameColumns [("Возраст", "age"), ("Имя", "name")]
        ["Возраст", "junk", "Имя"]) = ["Возраст", "Имя"] := by
  have h := (c7_column_mapping [("Возраст", "age"), ("Имя", "name")]
    ["Возраст", "junk", "Имя"] (by decide)).2.2
  rw [h]
  exact ⟨by decide, by decide⟩

/-- A successful `mapM` means every element succeeded. -/
theorem except_mapM_ok {α β : Type} (f : α → Except PyExn β) :
    ∀ (l : List α) (ys : List β), l.mapM f = .ok ys → ∀ x ∈ l, ∃ y, f x = .ok y := by
  intro l
  induction l with
  | nil =>
    intro ys h x hx
    exact absurd hx (List.not_mem_nil x)
  | cons a t ih =>
    intro ys h x hx
    rw [List.mapM_cons] at h
    cases hfa : f a with
    | error e => rw [hfa, exceptBind_error] at h; exact Except.noConfusion h
    | ok y =>
      rw [hfa, exceptBind_ok] at h
      cases hml : t.mapM f with
      | error e => rw [hml, exceptBind_error] at h; exact Except.noConfusion h
      | ok ys' =>
        rcases List.mem_cons.mp hx with rfl | hxt
        · exact ⟨y, hfa⟩
        · exact ih ys' hml x hxt

/-- A failed `mapM` exhibits a failing element with the same error. -/
theorem except_mapM_error {α β : Type} (f : α → Except PyExn β) :
    ∀ (l : List α) (e : PyExn), l.mapM f = .error e → ∃ x ∈ l, f x = .error e := by
  intro l
  induction l with
  | nil =>
    intro e h
    rw [List.mapM_nil] at h
    exact Except.noConfusion h
  | cons a t ih =>
    intro e h
    rw [List.mapM_cons] at h
    cases hfa : f a with
    | error e' =>
      rw [hfa, exceptBind_error] at h
      obtain rfl : e' = e := by injection h
      exact ⟨a, List.mem_cons_self a t, hfa⟩
    | ok y =>
      rw [hfa, exceptBind_ok] at h
      cases hml : t.mapM f with
      | error e' =>
        rw [hml, exceptBind_error] at h
        obtain rfl : e' = e := by injection h
        obtain ⟨x, hx, hfx⟩ := ih e' hml
        exact ⟨x, List.mem_cons_of_mem a hx, hfx⟩
      | ok ys =>
        rw [hml, exceptBind_ok] at h
        exact Except.noConfusion h

/-- A `mapM` over a list with a known failing element fails with that
error, when every possible error of the function is that error. -/
theorem except_mapM_bad_elem {α β : Type} (f : α → Except PyExn β)
    (hall : ∀ x e, f x = .error e → e = .attributeError)
    (l : List α) (x : α) (hx : x ∈ l) (hbad : f x = .error .attributeError) :
    l.mapM f = .error .attributeError := by
  cases h : l.mapM f with
  | ok ys =>
    obtain ⟨y, hy⟩ := except_mapM_ok f l ys h x hx
    rw [hbad] at hy
    exact Except.noConfusion hy
  | error e =>
    obtain ⟨z, _, hz⟩ := except_mapM_error f l e h
    rw [hall z e hz]

/-- The amount coercion can only raise `AttributeError`. -/
theorem coerceTotalAmount_error : ∀ {v : PyValue} {e : PyExn},
    coerceTotalAmount v = .error e → e = .attributeError := by
  intro v e h
  cases v with
  | vStr s =>
    by_cases hd : strIsdigit s = true
    · simp only [coerceTotalAmount, pyIsdigit, exceptBind_ok, hd, if_pos] at h
      exact Except.noConfusion h
    · simp only [Bool.not_eq_true] at hd
      simp only [coerceTotalAmount, pyIsdigit, exceptBind_ok, hd] at h
      rw [if_neg (by simp)] at h
      exact Except.noConfusion h
  | vNull => injection h with h'; exact h'.symm
  | vNaN => injection h with h'; exact h'.symm
  | vInt n => injection h with h'; exact h'.symm

/-- The per-cell amount coercion can only raise `AttributeError`. -/
theorem coerceAmountCell_error {kv : String × PyValue} {e : PyExn}
    (h : coerceAmountCell kv = .error e) : e = .attributeError := by
  unfold coerceAmountCell at h
  by_cases hk : kv.1 = "total_amount"
  · rw [if_pos hk] at h
    cases hv : coerceTotalAmount kv.2 with
    | error e' =>
      rw [hv, exceptBind_error] at h
      obtain rfl : e' = e := by injection h
      exact coerceTotalAmount_error hv
    | ok v =>
      rw [hv, exceptBind_ok] at h
      exact Except.noConfusion h
  · rw [if_neg hk] at h
    exact Except.noConfusion h

/-- The whole analytics row transform can only raise `AttributeError`. -/
theorem analyticsTransform_error {m : List (String × String)}
    {r : List (String × PyValue)} {e : PyExn}
    (h : analyticsTransform m r = .error e) : e = .attributeError := by
  unfold analyticsTransform at h
  obtain ⟨x, _, hx⟩ := except_mapM_error _ _ e h
  exact coerceAmountCell_error hx

/-- A row whose renamed cells put a null (after normalization) into the
`total_amount` column makes the analytics transform raise. -/
theorem analyticsTransform_null_amount {m : List (String × String)}
    {row : List (String × PyValue)} {v : PyValue}
    (hv : ("total_amount", v) ∈ renameRowCells m row) (hnull : pdNotna v = false) :
    analyticsTransform m row = .error .attributeError := by
  have h1 : ("total_amount", PyValue.vNull) ∈
      (renameRowCells m row).map (fun kv => (kv.1, normalizeNull kv.2)) := by
    have hm := List.mem_map_of_mem (fun kv => (kv.1, normalizeNull kv.2)) hv
    simpa [normalizeNull, hnull] using hm
  have h2 : ("total_amount", PyValue.vNull) ∈
      ((renameRowCells m row).map (fun kv => (kv.1, normalizeNull kv.2))).map
        coerceAgeCell := by
    have hm := List.mem_map_of_mem coerceAgeCell h1
    simpa [coerceAgeCell] using hm
  unfold analyticsTransform
  exact except_mapM_bad_elem coerceAmountCell (fun _ _ hx => coerceAmountCell_error hx)
    _ _ h2 rfl

/-- C10: the monetary-amount coercion is not total on nulls — after NaN
cells are normalized to None, `.isdigit()` is applied without a null or
type guard, so any analytics batch whose renamed rows carry a null in the
`total_amount` column makes the analytics upload raise `AttributeError`
and insert nothing, instead of nulling the field. -/
theorem c10_null_amount_raises (m : List (String × String))
    (commit : List (List (String × PyValue)) → Except PyExn Unit)
    (table df : List (List (String × PyValue)))
    (h : ∃ row ∈ df, ∃ v, ("total_amount", v) ∈ renameRowCells m row ∧
      pdNotna v = false) :
    uploadAnalyticsRun m commit table df = (some .attributeError, table) := by
  obtain ⟨row, hrow, v, hv, hnull⟩ := h
  have hbad := analyticsTransform_null_amount hv hnull
  have hm : df.mapM (analyticsTransform m) = .error .attributeError :=
    except_mapM_bad_elem (analyticsTransform m)
      (fun _ _ he => analyticsTransform_error he) df row hrow hbad
  unfold uploadAnalyticsRun
  rw [hm]

/-- C10 witness: one row whose source cell for the amount column is an
empty CSV cell (NaN); the upload raises and the table stays empty. -/
theorem c10_null_amount_raises_witness :
    uploadAnalyticsRun [("Итого", "total_amount")] (fun _ => Except.ok ()) []
      [[("Итого", PyValue.vNaN)]] = (some .attributeError, []) := by
  refine c10_null_amount_raises _ _ _ _
    ⟨[("Итого", PyValue.vNaN)], by simp, PyValue.vNaN, by decide, rfl⟩

end Extractor
